import Mathlib

/-!
Verification of the bible reference toolkit (src/bible.py): book resolution,
reference parsing, clause reflow formatting and passage structuring.
Strings are modelled as lists of characters; Python regular-expression
passes are modelled as deterministic scanners that reproduce the
backtracking behaviour of the concrete patterns used by the source.
-/

set_option maxRecDepth 2000000
set_option maxHeartbeats 8000000

deriving instance DecidableEq for Except

namespace Bible

/-- Characters Python treats as whitespace (str.strip, regex \s / \S). -/
def pyIsSpace (c : Char) : Bool :=
  decide (c.toNat = 32 ∨ c.toNat = 9 ∨ c.toNat = 10 ∨ c.toNat = 13 ∨
    c.toNat = 11 ∨ c.toNat = 12 ∨ (28 ≤ c.toNat ∧ c.toNat ≤ 31) ∨
    c.toNat = 0x85 ∨ c.toNat = 0xa0 ∨ c.toNat = 0x1680 ∨
    (0x2000 ≤ c.toNat ∧ c.toNat ≤ 0x200a) ∨ c.toNat = 0x2028 ∨
    c.toNat = 0x2029 ∨ c.toNat = 0x202f ∨ c.toNat = 0x205f ∨ c.toNat = 0x3000)

def isDigitC (c : Char) : Bool := decide ('0' ≤ c ∧ c ≤ '9')

/-- Python regex \w on ASCII text: letters, digits and underscore. -/
def isWordC (c : Char) : Bool := c.isAlphanum || c = '_'

def asciiLower (c : Char) : Char :=
  if 'A' ≤ c ∧ c ≤ 'Z' then Char.ofNat (c.toNat + 32) else c

/-- str.strip() with no arguments: remove leading and trailing whitespace. -/
def pyStrip (l : List Char) : List Char :=
  ((l.dropWhile pyIsSpace).reverse.dropWhile pyIsSpace).reverse

/-- str.rstrip("\n"): remove trailing newline characters. -/
def rstripNl (l : List Char) : List Char :=
  (l.reverse.dropWhile (fun c => c = '\n')).reverse

def dval (c : Char) : Nat := c.toNat - 48

def digitsToNat (l : List Char) : Nat :=
  l.foldl (fun a c => 10 * a + dval c) 0

/-- value of int(s) digits, honouring the single-underscore grouping rule. -/
def digitsUndGo : Nat → List Char → Nat → Option Nat
  | _, [], acc => some acc
  | 0, _ :: _, _ => none
  | fuel + 1, c :: rest, acc =>
    if isDigitC c then digitsUndGo fuel rest (10 * acc + dval c)
    else if c = '_' then
      match rest with
      | d :: rest2 =>
        if isDigitC d then digitsUndGo fuel rest2 (10 * acc + dval d) else none
      | [] => none
    else none

def digitsUnd : List Char → Option Nat
  | [] => none
  | c :: rest =>
    if isDigitC c then digitsUndGo rest.length rest (dval c) else none

/-- Python int(string) for a decimal literal: optional surrounding
whitespace, optional sign, digits with optional underscores; None models
ValueError. -/
def pyInt? (l : List Char) : Option Int :=
  match pyStrip l with
  | '+' :: r => (digitsUnd r).map (fun n => (n : Int))
  | '-' :: r => (digitsUnd r).map (fun n => -(n : Int))
  | r => (digitsUnd r).map (fun n => (n : Int))

/-- token normalisation in Book.get_book: string.lower().replace("", ""). -/
def normalizeChars (l : List Char) : List Char :=
  (l.map asciiLower).filter (fun c => c ≠ ' ')

/-- the BOOKS table: ordinal, display name, chapter count. -/
def BOOKS : List (Int × String × Nat) :=
  [(1, "Genesis", 50), (2, "Exodus", 40), (3, "Leviticus", 27),
   (4, "Numbers", 36), (5, "Deuteronomy", 34), (6, "Joshua", 24),
   (7, "Judges", 21), (8, "Ruth", 4), (9, "1 Samuel", 31),
   (10, "2 Samuel", 24), (11, "1 Kings", 22), (12, "2 Kings", 25),
   (13, "1 Chronicles", 29), (14, "2 Chronicles", 36), (15, "Ezra", 10),
   (16, "Nehemiah", 13), (17, "Esther", 10), (18, "Job", 42),
   (19, "Psalms", 150), (20, "Proverbs", 31), (21, "Ecclesiastes", 12),
   (22, "Song of Solomon", 8), (23, "Isaiah", 66), (24, "Jeremiah", 52),
   (25, "Lamentations", 5), (26, "Ezekiel", 48), (27, "Daniel", 12),
   (28, "Hosea", 14), (29, "Joel", 3), (30, "Amos", 9),
   (31, "Obadiah", 1), (32, "Jonah", 4), (33, "Micah", 7),
   (34, "Nahum", 3), (35, "Habakkuk", 3), (36, "Zephaniah", 3),
   (37, "Haggai", 2), (38, "Zechariah", 14), (39, "Malachi", 4),
   (40, "Matthew", 28), (41, "Mark", 16), (42, "Luke", 24),
   (43, "John", 21), (44, "Acts", 28), (45, "Romans", 16),
   (46, "1 Corinthians", 16), (47, "2 Corinthians", 13),
   (48, "Galatians", 6), (49, "Ephesians", 6), (50, "Philippians", 4),
   (51, "Colossians", 4), (52, "1 Thessalonians", 5),
   (53, "2 Thessalonians", 3), (54, "1 Timothy", 6), (55, "2 Timothy", 4),
   (56, "Titus", 3), (57, "Philemon", 1), (58, "Hebrews", 13),
   (59, "James", 5), (60, "1 Peter", 5), (61, "2 Peter", 3),
   (62, "1 John", 5), (63, "2 John", 1), (64, "3 John", 1),
   (65, "Jude", 1), (66, "Revelation", 22)]

/-- REVERSE_LOOKUP: normalised name to ordinal, in catalog order. -/
def REVERSE_LOOKUP : List (List Char × Int) :=
  BOOKS.map (fun e => (normalizeChars e.2.1.data, e.1))

/-- SPECIAL_ABBREVATIONS, in source order. -/
def SPECIAL_ABBREVATIONS : List (List Char × String) :=
  [("dn".data, "Daniel"), ("dt".data, "Deuteronomy"), ("gn".data, "Genesis"),
   ("hb".data, "Habakkuk"), ("hg".data, "Haggai"), ("jdg".data, "Judges"),
   ("jg".data, "Judges"), ("jm".data, "James"), ("jn".data, "John"),
   ("jr".data, "Jeremiah"), ("lv".data, "Leviticus"), ("mc".data, "Micah"),
   ("mk".data, "Mark"), ("ml".data, "Malachi"), ("mr".data, "Mark"),
   ("mt".data, "Matthew"), ("nb".data, "Numbers"), ("phm".data, "Philemon"),
   ("php".data, "Philippians"), ("pm".data, "Philemon"),
   ("pp".data, "Philippians"), ("zc".data, "Zechariah"),
   ("zp".data, "Zephaniah")]

/-- the character class of re.sub(r"[a|e|i|o|u|A|E|I|O|O]", "", ...):
lowercase and uppercase vowels as written in the source (the class also
contains the literal bar and repeats O while omitting U). -/
def isStrippedVowel (c : Char) : Bool :=
  decide (c = 'a' ∨ c = '|' ∨ c = 'e' ∨ c = 'i' ∨ c = 'o' ∨ c = 'u' ∨
    c = 'A' ∨ c = 'E' ∨ c = 'I' ∨ c = 'O')

/-- REVERSE_LOOKUP_NO_VOWELS. -/
def REVERSE_LOOKUP_NO_VOWELS : List (List Char × Int) :=
  REVERSE_LOOKUP.map (fun p => (p.1.filter (fun c => ¬ isStrippedVowel c), p.2))

/-- EMPTY_SPACE, U+2003. -/
def EMPTY_SPACE : Char := ' '

/-- Python substring containment (value in key). -/
def containsSub (hay needle : List Char) : Bool :=
  hay.tails.any (fun t => needle.isPrefixOf t)

/-- fuzzy_match: greedy in-order character scan charging absolute
positions; None when a character cannot be found at or after the cursor. -/
def fuzzyGo (base : List Char) : List Char → Nat → Nat → Option Nat
  | [], _, score => some score
  | c :: rest, cur, score =>
    if c = ' ' then fuzzyGo base rest cur score
    else
      match (base.drop cur).findIdx? (fun x => x = c) with
      | none => none
      | some i => fuzzyGo base rest (cur + i) (score + (cur + i))

def fuzzy_match (phrase base : List Char) : Option Nat :=
  fuzzyGo base phrase 0 0

/-- Python string comparison (lexicographic by code point). -/
def clLt : List Char → List Char → Bool
  | _, [] => false
  | [], _ :: _ => true
  | a :: as, b :: bs => if a < b then true else if b < a then false else clLt as bs

/-- comparison used by sorted() on (score, key) pairs. -/
def pairLeB (x y : Nat × List Char) : Bool :=
  if x.1 < y.1 then true
  else if y.1 < x.1 then false
  else (clLt x.2 y.2 || x.2 == y.2)

def insPair (x : Nat × List Char) : List (Nat × List Char) → List (Nat × List Char)
  | [] => [x]
  | y :: ys => if pairLeB x y then x :: y :: ys else y :: insPair x ys

/-- sorted() on the filtered (score, key) pairs. -/
def sortPairs : List (Nat × List Char) → List (Nat × List Char)
  | [] => []
  | x :: xs => insPair x (sortPairs xs)

/-- the (fuzzy_match(value, key), key) pairs with None scores filtered out,
in catalog iteration order. -/
def fuzzyPairs (value : List Char) : List (Nat × List Char) :=
  REVERSE_LOOKUP.filterMap (fun p =>
    match fuzzy_match value p.1 with
    | some s => some (s, p.1)
    | none => none)

/-- matched[0] of the sorted candidate list, when any candidate exists. -/
def fuzzyBest (value : List Char) : Option (Nat × List Char) :=
  (sortPairs (fuzzyPairs value)).head?

structure Book where
  number : Int
  name : String
  chapter_count : Nat
deriving DecidableEq, Repr

/-- exceptions Book.get_book can raise. -/
inductive BookErr where
  | bookNotFound
  | keyError
deriving DecidableEq, Repr

def booksGet? (n : Int) : Option (String × Nat) :=
  (BOOKS.find? (fun e => e.1 = n)).map (fun e => e.2)

namespace Book

/-- Book.from_number: BOOKS[number] (None models the KeyError of a missing
key). -/
def from_number (n : Int) : Option Book :=
  (booksGet? n).map (fun e => ⟨n, e.1, e.2⟩)

def keyed : Option Book → Except BookErr Book
  | some b => .ok b
  | none => .error .keyError

/-- assoc lookup in a Python dict built in insertion order with unique keys. -/
def dictGet (d : List (List Char × Int)) (k : List Char) : Option Int :=
  (d.find? (fun p => p.1 = k)).map (fun p => p.2)

def abbrGet (k : List Char) : Option String :=
  (SPECIAL_ABBREVATIONS.find? (fun p => p.1 = k)).map (fun p => p.2)

/-- Book.get_book: the seven-stage resolution chain. -/
def get_book (string : List Char) : Except BookErr Book :=
  let value := normalizeChars string
  match pyInt? value with
  | some n => keyed (from_number n)
  | none =>
    match dictGet REVERSE_LOOKUP value with
    | some n => keyed (from_number n)
    | none =>
      match abbrGet value with
      | some name =>
        match dictGet REVERSE_LOOKUP (normalizeChars name.data) with
        | some n => keyed (from_number n)
        | none => .error .keyError
      | none =>
        match dictGet REVERSE_LOOKUP_NO_VOWELS value with
        | some n => keyed (from_number n)
        | none =>
          match REVERSE_LOOKUP.find? (fun p => value.isPrefixOf p.1) with
          | some p => keyed (from_number p.2)
          | none =>
            match REVERSE_LOOKUP.find? (fun p => containsSub p.1 value) with
            | some p => keyed (from_number p.2)
            | none =>
              match fuzzyBest value with
              | some sk =>
                match dictGet REVERSE_LOOKUP sk.2 with
                | some n => keyed (from_number n)
                | none => .error .keyError
              | none => .error .bookNotFound

/-- Book.next: cyclic successor. -/
def next (b : Book) : Option Book :=
  let n := b.number + 1
  from_number (if n > 66 then n % 66 else n)

/-- Book.prev: cyclic predecessor. -/
def prev (b : Book) : Option Book :=
  let n := b.number - 1
  from_number (if n = 0 then 66 else n)

end Book

structure Verse where
  book : Book
  chapter_number : Nat
  number : Nat
  text : String := ""
deriving DecidableEq, Repr

/-- end-of-string for the regex anchor, which also matches just before a
single trailing newline. -/
def atEnd : List Char → Bool
  | [] => true
  | [c] => c = '\n'
  | _ => false

/-- parse_single_chapter_no_verse: append "1" unless the last character is
a digit, then match (^.+?)(\d+): the lazy book is everything before the
first digit at index at least 1, the chapter is the maximal digit run
there; on no match return ("1", 1). -/
def noVerseGo : List Char → List Char → Option (List Char × Nat)
  | _, [] => none
  | acc, c :: cs =>
    if c = '\n' then none
    else if isDigitC c then
      some (acc.reverse, digitsToNat ((c :: cs).takeWhile isDigitC))
    else noVerseGo (c :: acc) cs

def parse_single_chapter_no_verse (query : List Char) : List Char × Nat :=
  let q :=
    match query.getLast? with
    | none => query ++ ['1']
    | some c => if isDigitC c then query else query ++ ['1']
  match q with
  | [] => (['1'], 1)
  | c0 :: rest =>
    if c0 = '\n' then (['1'], 1)
    else
      match noVerseGo [c0] rest with
      | some r => r
      | none => (['1'], 1)

/-- one attempt of (\d+)(:|v)(\d+)$ at a digit position; the digit runs are
forced maximal because their followers can never be digits. -/
def chvAttempt (rest : List Char) : Option (Nat × Nat) :=
  let run := rest.takeWhile isDigitC
  match rest.drop run.length with
  | sep :: r2 =>
    if sep = ':' ∨ sep = 'v' then
      let vrun := r2.takeWhile isDigitC
      if vrun ≠ [] ∧ atEnd (r2.drop vrun.length) then
        some (digitsToNat run, digitsToNat vrun)
      else none
    else none
  | [] => none

/-- parse_single_chapter_with_start_verse:
^(?P<book>^.+?)(?P<chapter>\d+)(:|v)(?P<verse>\d+)$ with a lazy book. -/
def startVerseGo : List Char → List Char → Option (List Char × Nat × Nat)
  | _, [] => none
  | acc, c :: cs =>
    if c = '\n' then none
    else if isDigitC c then
      match chvAttempt (c :: cs) with
      | some (ch, v) => some (acc.reverse, ch, v)
      | none => startVerseGo (c :: acc) cs
    else startVerseGo (c :: acc) cs

def parse_single_chapter_with_start_verse (query : List Char) :
    Option (List Char × Nat × Nat) :=
  match query with
  | [] => none
  | c0 :: rest => if c0 = '\n' then none else startVerseGo [c0] rest

def isDashC (c : Char) : Bool := c = '-' || c = '–'

/-- one attempt of (\d+)(:|v)(\d+)(-|–)(\d+)$ at a digit position. -/
def chvvAttempt (rest : List Char) : Option (Nat × Nat × Nat) :=
  let run := rest.takeWhile isDigitC
  match rest.drop run.length with
  | sep :: r2 =>
    if sep = ':' ∨ sep = 'v' then
      let v1 := r2.takeWhile isDigitC
      if v1 = [] then none
      else
        match r2.drop v1.length with
        | d :: r3 =>
          if isDashC d then
            let v2 := r3.takeWhile isDigitC
            if v2 ≠ [] ∧ atEnd (r3.drop v2.length) then
              some (digitsToNat run, digitsToNat v1, digitsToNat v2)
            else none
          else none
        | [] => none
    else none
  | [] => none

/-- parse_single_chapter_with_verses:
^(^.+?)(\d+)(:|v)(\d+)(-|–)(\d+)$ with a lazy book. -/
def versesGo : List Char → List Char → Option (List Char × Nat × Nat × Nat)
  | _, [] => none
  | acc, c :: cs =>
    if c = '\n' then none
    else if isDigitC c then
      match chvvAttempt (c :: cs) with
      | some (ch, v1, v2) => some (acc.reverse, ch, v1, v2)
      | none => versesGo (c :: acc) cs
    else versesGo (c :: acc) cs

def parse_single_chapter_with_verses (query : List Char) :
    Option (List Char × Nat × Nat × Nat) :=
  match query with
  | [] => none
  | c0 :: rest => if c0 = '\n' then none else versesGo [c0] rest

/-- the (\d+)((:|v)(\d+)|)$ tail of the cross-chapter pattern: end chapter
with optional end verse (0 when absent). -/
def endPart (r : List Char) : Option (Nat × Nat) :=
  let run := r.takeWhile isDigitC
  if run = [] then none
  else
    let rem := r.drop run.length
    match rem with
    | sep :: r2 =>
      if sep = ':' ∨ sep = 'v' then
        let ev := r2.takeWhile isDigitC
        if ev ≠ [] ∧ atEnd (r2.drop ev.length) then
          some (digitsToNat run, digitsToNat ev)
        else if atEnd rem then some (digitsToNat run, 0) else none
      else if atEnd rem then some (digitsToNat run, 0) else none
    | [] => some (digitsToNat run, 0)

/-- one attempt of (\d+)((v|:)(\d+)|)(-|–)(\d+)((:|v)(\d+)|)$ at a digit
position: the optional start-verse branch is tried first, then the empty
alternative. -/
def chaptersAttempt (rest : List Char) : Option (Nat × Nat × Nat × Nat) :=
  let run := rest.takeWhile isDigitC
  let after := rest.drop run.length
  let viaVerse : Option (Nat × Nat × Nat × Nat) :=
    match after with
    | sep :: r2 =>
      if sep = 'v' ∨ sep = ':' then
        let sv := r2.takeWhile isDigitC
        if sv = [] then none
        else
          match r2.drop sv.length with
          | d :: r3 =>
            if isDashC d then
              (endPart r3).map (fun e => (digitsToNat run, digitsToNat sv, e))
            else none
          | [] => none
      else none
    | [] => none
  match viaVerse with
  | some r => some r
  | none =>
    match after with
    | d :: r3 =>
      if isDashC d then
        (endPart r3).map (fun e => (digitsToNat run, 0, e))
      else none
    | [] => none

def chaptersGo : List Char → List Char → Option (List Char × Nat × Nat × Nat × Nat)
  | _, [] => none
  | acc, c :: cs =>
    if c = '\n' then none
    else if isDigitC c then
      match chaptersAttempt (c :: cs) with
      | some (sc, sv, ec, ev) => some (acc.reverse, sc, sv, ec, ev)
      | none => chaptersGo (c :: acc) cs
    else chaptersGo (c :: acc) cs

/-- parse_chapters_with_verses: the cross-chapter shape, rejecting a match
whose start verse is given while the end verse is absent. -/
def parse_chapters_with_verses (query : List Char) :
    Option (List Char × Nat × Nat × Nat × Nat) :=
  let matched :=
    match query with
    | [] => none
    | c0 :: rest => if c0 = '\n' then none else chaptersGo [c0] rest
  match matched with
  | none => none
  | some (book, sc, sv, ec, ev) =>
    if sv ≠ 0 ∧ ev = 0 then none else some (book, sc, sv, ec, ev)

/-- parse_query: the four citation shapes in precedence order.  get_book is
pure, so the two identical calls of each range branch are shared. -/
def parse_query (query : List Char) : Except BookErr (Verse × Option Verse) :=
  match parse_chapters_with_verses query with
  | some (book, sc, sv, ec, ev) =>
    match Book.get_book book with
    | .error e => .error e
    | .ok b => .ok (⟨b, sc, sv, ""⟩, some ⟨b, ec, ev, ""⟩)
  | none =>
    match parse_single_chapter_with_verses query with
    | some (book, ch, v1, v2) =>
      match Book.get_book book with
      | .error e => .error e
      | .ok b => .ok (⟨b, ch, v1, ""⟩, some ⟨b, ch, v2, ""⟩)
    | none =>
      match parse_single_chapter_with_start_verse query with
      | some (book, ch, v) =>
        match Book.get_book book with
        | .error e => .error e
        | .ok b => .ok (⟨b, ch, v, ""⟩, none)
      | none =>
        let bc := parse_single_chapter_no_verse query
        match Book.get_book bc.1 with
        | .error e => .error e
        | .ok b => .ok (⟨b, bc.2, 0, ""⟩, none)

def squote : Char := Char.ofNat 39

def dquote : Char := Char.ofNat 34

def prevNonSpace : Option Char → Bool
  | some p => ¬ pyIsSpace p
  | none => false

/-- pass for (?<=\S) " : break before an opening double quote preceded by
a non-whitespace character (the lookbehind reads the input text). -/
def rule1Go (ib : List Char) : Nat → Option Char → List Char → List Char
  | 0, _, l => l
  | _, _, [] => []
  | fuel + 1, prev, c :: rest =>
    match rest with
    | q :: rest2 =>
      if c = ' ' ∧ q = dquote ∧ prevNonSpace prev then
        ib ++ q :: rule1Go ib fuel (some q) rest2
      else c :: rule1Go ib fuel (some c) rest
    | [] => [c]

/-- pass for " '" : break before an opening single quote preceded by a
space. -/
def rule2Go (ib : List Char) : Nat → List Char → List Char
  | 0, l => l
  | _, [] => []
  | fuel + 1, c :: rest =>
    match rest with
    | q :: rest2 =>
      if c = ' ' ∧ q = squote then ib ++ q :: rule2Go ib fuel rest2
      else c :: rule2Go ib fuel rest
    | [] => [c]

/-- the optional complete footnote group (\(\d+\)|). -/
def footnoteSplit (l : List Char) : List Char × List Char :=
  match l with
  | c :: rest =>
    if c = '(' then
      let ds := rest.takeWhile isDigitC
      if ds ≠ [] then
        match rest.drop ds.length with
        | cc :: r2 => if cc = ')' then ('(' :: ds ++ [')'], r2) else ([], l)
        | [] => ([], l)
      else ([], l)
    else ([], l)
  | [] => ([], l)

/-- after a full stop: optional quote, optional footnote, then one or more
spaces; the matched run of spaces is consumed. -/
def rule3Try (rest : List Char) : Option (List Char × List Char) :=
  let s1 :=
    match rest with
    | c :: t => if c = squote ∨ c = dquote then ([c], t) else (([] : List Char), rest)
    | [] => ([], rest)
  let s2 := footnoteSplit s1.2
  let sp := s2.2.takeWhile (fun c => c = ' ')
  if sp ≠ [] then some (s1.1 ++ s2.1, s2.2.drop sp.length) else none

/-- pass for the full-stop rule. -/
def rule3Go (ib : List Char) : Nat → List Char → List Char
  | 0, l => l
  | _, [] => []
  | fuel + 1, c :: rest =>
    if c = '.' then
      match rule3Try rest with
      | some (g, rest2) => c :: g ++ ib ++ rule3Go ib fuel rest2
      | none => c :: rule3Go ib fuel rest
    else c :: rule3Go ib fuel rest

/-- pass for a closing mark followed by a space. -/
def markGo (ib : List Char) (mark : Char) : Nat → List Char → List Char
  | 0, l => l
  | _, [] => []
  | fuel + 1, c :: rest =>
    match rest with
    | s :: rest2 =>
      if c = mark ∧ s = ' ' then c :: ib ++ markGo ib mark fuel rest2
      else c :: markGo ib mark fuel rest
    | [] => [c]

/-- pass for (?<!s)' " : a single quote followed by a space, unless
preceded by the letter s (possessive). -/
def rule5Go (ib : List Char) : Nat → Option Char → List Char → List Char
  | 0, _, l => l
  | _, _, [] => []
  | fuel + 1, prev, c :: rest =>
    match rest with
    | s :: rest2 =>
      if c = squote ∧ s = ' ' ∧ prev ≠ some 's' then
        c :: ib ++ rule5Go ib fuel (some ' ') rest2
      else c :: rule5Go ib fuel (some c) rest
    | [] => [c]

/-- attempt of (\(\d+\)|) {word} " just after a comma or semicolon. -/
def linkTry (word : List Char) (l : List Char) : Option (List Char × List Char) :=
  let s2 := footnoteSplit l
  match s2.2 with
  | s :: r2 =>
    if s = ' ' ∧ word.isPrefixOf r2 then
      match r2.drop word.length with
      | t :: r3 => if t = ' ' then some (s2.1, r3) else none
      | [] => none
    else none
  | [] => none

/-- pass for a linking word after a comma or semicolon. -/
def linkGo (ib word : List Char) : Nat → List Char → List Char
  | 0, l => l
  | _, [] => []
  | fuel + 1, c :: rest =>
    if c = ',' ∨ c = ';' then
      match linkTry word rest with
      | some (g2, r3) => c :: g2 ++ ib ++ word ++ ' ' :: linkGo ib word fuel r3
      | none => c :: linkGo ib word fuel rest
    else c :: linkGo ib word fuel rest

/-- the greedy ( \w+)+ group run of the conjunction rule. -/
def conjGroupsGo : Nat → List Char → List Char → List Char × List Char
  | 0, acc, l => (acc, l)
  | fuel + 1, acc, l =>
    match l with
    | s :: r =>
      if s = ' ' then
        let w := r.takeWhile isWordC
        if w ≠ [] then conjGroupsGo fuel (acc ++ s :: w) (r.drop w.length)
        else (acc, l)
      else (acc, l)
    | [] => (acc, l)

/-- attempt of ({conj}( \w+)+,) " at the current position. -/
def conjTry (conj : List Char) (l : List Char) : Option (List Char × List Char) :=
  if conj.isPrefixOf l then
    let r := l.drop conj.length
    let gs := conjGroupsGo r.length [] r
    if gs.1 ≠ [] then
      match gs.2 with
      | c :: r3 =>
        if c = ',' then
          match r3 with
          | s :: r4 => if s = ' ' then some (conj ++ gs.1 ++ [','], r4) else none
          | [] => none
        else none
      | [] => none
    else none
  else none

/-- pass for a sentence-opening conjunction phrase ending in a comma. -/
def conjGo (ib conj : List Char) : Nat → List Char → List Char
  | 0, l => l
  | _, [] => []
  | fuel + 1, c :: rest =>
    match conjTry conj (c :: rest) with
    | some (consumed, r4) => consumed ++ ib ++ conjGo ib conj fuel r4
    | none => c :: conjGo ib conj fuel rest

/-- the (?!\w+ as) lookahead of the as-rule. -/
def asLook (r3 : List Char) : Bool :=
  let w := r3.takeWhile isWordC
  w ≠ [] && (" as".data).isPrefixOf (r3.drop w.length)

/-- attempt of (\(\d+\)|) as (?!\w+ as) after a comma or semicolon. -/
def asTry (l : List Char) : Option (List Char × List Char) :=
  let s2 := footnoteSplit l
  match s2.2 with
  | s :: r2 =>
    if s = ' ' ∧ ("as ".data).isPrefixOf r2 then
      let r3 := r2.drop 3
      if asLook r3 then none else some (s2.1, r3)
    else none
  | [] => none

/-- pass for the as-rule. -/
def asGo (ib : List Char) : Nat → List Char → List Char
  | 0, l => l
  | _, [] => []
  | fuel + 1, c :: rest =>
    if c = ',' ∨ c = ';' then
      match asTry rest with
      | some (g2, r3) => c :: g2 ++ ib ++ "as ".data ++ asGo ib fuel r3
      | none => c :: asGo ib fuel rest
    else c :: asGo ib fuel rest

/-- the (?!(\w+ |)(\w+)(\.|;)) lookahead of the and-rule. -/
def andLook (r3 : List Char) : Bool :=
  let w1 := r3.takeWhile isWordC
  if w1 = [] then false
  else
    let r4 := r3.drop w1.length
    (match r4 with
     | c :: _ => c = '.' || c = ';'
     | [] => false)
    ||
    (match r4 with
     | s :: r5 =>
       s = ' ' &&
         (let w2 := r5.takeWhile isWordC
          w2 ≠ [] &&
            (match r5.drop w2.length with
             | c :: _ => c = '.' || c = ';'
             | [] => false))
     | [] => false)

/-- attempt of (\(\d+\)|) and (?!...) after a comma or semicolon. -/
def andTry (l : List Char) : Option (List Char × List Char) :=
  let s2 := footnoteSplit l
  match s2.2 with
  | s :: r2 =>
    if s = ' ' ∧ ("and ".data).isPrefixOf r2 then
      let r3 := r2.drop 4
      if andLook r3 then none else some (s2.1, r3)
    else none
  | [] => none

/-- pass for the and-rule. -/
def andGo (ib : List Char) : Nat → List Char → List Char
  | 0, l => l
  | _, [] => []
  | fuel + 1, c :: rest =>
    if c = ',' ∨ c = ';' then
      match andTry rest with
      | some (g2, r3) => c :: g2 ++ ib ++ "and ".data ++ andGo ib fuel r3
      | none => c :: andGo ib fuel rest
    else c :: andGo ib fuel rest

def closingMarks : List Char := ['!', ';', dquote, '?', ':']

def linkWords : List (List Char) :=
  ["so".data, "but".data, "because".data, "not because".data,
   "therefore".data, "for".data, "in order that".data, "unless".data,
   "not only".data, "which".data, "where".data, "when".data, "who".data,
   "whose".data, "whom".data, "of whom".data, "of which".data,
   "even though".data, "since".data]

def conjunctionPhrases : List (List Char) :=
  ["When".data, "But when".data, "So when".data]

/-- verse_to_markdown: the ordered chain of clause-break rewrites, with an
optional verse-number prefix. -/
def verse_to_markdown (text : List Char) (number : Option Nat) (strict : Bool) :
    List Char :=
  let ib := if strict then "<br>".data ++ [EMPTY_SPACE] else "\n    ".data
  let t1 := rule1Go ib text.length none text
  let t2 := rule2Go ib t1.length t1
  let t3 := rule3Go ib t2.length t2
  let t4 := closingMarks.foldl (fun acc m => markGo ib m acc.length acc) t3
  let t5 := rule5Go ib t4.length none t4
  let t6 := linkWords.foldl (fun acc w => linkGo ib w acc.length acc) t5
  let t7 := conjunctionPhrases.foldl (fun acc cj => conjGo ib cj acc.length acc) t6
  let t8 := asGo ib t7.length t7
  let t9 := andGo ib t8.length t8
  match number with
  | some n => if n ≠ 0 then Nat.toDigits 10 n ++ '.' :: ' ' :: t9 else t9
  | none => t9

def LINE_BREAK : List Char := ['\n']

def PARAGRAPH_BREAK : List Char := "---\n".data

/-- text.split("\n"). -/
def splitNl : List Char → List (List Char)
  | [] => [[]]
  | c :: rest =>
    let r := splitNl rest
    if c = '\n' then [] :: r
    else
      match r with
      | h :: t => (c :: h) :: t
      | [] => [[c]]

/-- the paragraph_start pattern "  \S" matched at the line start. -/
def paraStart : List Char → Bool
  | a :: b :: c :: _ => a = ' ' && b = ' ' && ¬ pyIsSpace c
  | _ => false

/-- footnote_mark ^\((\d+)\) with its substitution to "- (n)...". -/
def footnoteLine? (l : List Char) : Option (List Char) :=
  match l with
  | c :: rest =>
    if c = '(' then
      let ds := rest.takeWhile isDigitC
      if ds ≠ [] then
        match rest.drop ds.length with
        | cc :: r2 => if cc = ')' then some ("- (".data ++ ds ++ ')' :: r2) else none
        | [] => none
      else none
    else none
  | [] => none

/-- finditer of the verse_mark \[(\d+)\] * : (match start, number, match
end) triples in scanning order. -/
def findMarksGo : Nat → Nat → List Char → List (Nat × Nat × Nat)
  | 0, _, _ => []
  | _, _, [] => []
  | fuel + 1, pos, c :: rest =>
    if c = '[' then
      let ds := rest.takeWhile isDigitC
      if ds ≠ [] then
        match rest.drop ds.length with
        | cc :: r2 =>
          if cc = ']' then
            let sp := r2.takeWhile (fun x => x = ' ')
            let me := pos + 1 + ds.length + 1 + sp.length
            (pos, digitsToNat ds, me) :: findMarksGo fuel me (r2.drop sp.length)
          else findMarksGo fuel (pos + 1) rest
        | [] => findMarksGo fuel (pos + 1) rest
      else findMarksGo fuel (pos + 1) rest
    else findMarksGo fuel (pos + 1) rest

def findMarks (l : List Char) : List (Nat × Nat × Nat) :=
  findMarksGo l.length 0 l

/-- verse_mark.sub("", s): delete every verse marker occurrence. -/
def removeMarksGo : Nat → List Char → List Char
  | 0, l => l
  | _, [] => []
  | fuel + 1, c :: rest =>
    if c = '[' then
      let ds := rest.takeWhile isDigitC
      if ds ≠ [] then
        match rest.drop ds.length with
        | cc :: r2 =>
          if cc = ']' then removeMarksGo fuel (r2.dropWhile (fun x => x = ' '))
          else c :: removeMarksGo fuel rest
        | [] => c :: removeMarksGo fuel rest
      else c :: removeMarksGo fuel rest
    else c :: removeMarksGo fuel rest

def removeMarks (l : List Char) : List Char :=
  removeMarksGo l.length l

/-- Python slice line[a:b] for 0 <= a <= b. -/
def sliceCL (l : List Char) (a b : Nat) : List Char :=
  (l.drop a).take (b - a)

/-- one backfilled placeholder entry: number, dot, space, EMPTY_SPACE,
newline. -/
def placeholderEntry (n : Nat) : List Char :=
  Nat.toDigits 10 n ++ ". ".data ++ [EMPTY_SPACE] ++ LINE_BREAK

/-- the missing-verse while loop: one empty line and one placeholder entry
for every number strictly between verseNum and target. -/
def fillGapsGo : Nat → Nat → Nat → List (List Char)
  | 0, _, _ => []
  | fuel + 1, verseNum, target =>
    if verseNum + 1 < target then
      [] :: placeholderEntry (verseNum + 1) :: fillGapsGo fuel (verseNum + 1) target
    else []

def fillGaps (verseNum target : Nat) : List (List Char) :=
  fillGapsGo (target - verseNum) verseNum target

/-- mutable state of the verse-line loop: slice cursor, result buffer
(reversed), running verse number, emitted lines (reversed, most recent
first) and the next chapter to announce. -/
structure MSt where
  start : Nat
  resultRev : List (List Char)
  verseNum : Nat
  revLines : List (List Char)
  startChapter : Option Nat

/-- the chapter-marker injection executed when a new verse 1 is seen while
a multi-chapter range is active: a backward edit of the preceding
separator or section-header line, plus a paragraph break in front of any
already accumulated segment. -/
def verse1Adjust (multi : Bool) (endChap : Option Nat) (st : MSt) : MSt :=
  match st.startChapter, endChap with
  | some sc, some ec =>
    if multi ∧ sc ≤ ec then
      let step1 : Option (List (List Char) × Nat) :=
        match st.revLines with
        | lastL :: sndL :: rest =>
          if lastL = [] ∧ ("##".data).isPrefixOf sndL then
            some (lastL :: ('*' :: Nat.toDigits 10 sc ++ "*\n".data ++ sndL) :: rest, sc + 1)
          else none
        | _ => none
      let s1 := match step1 with | some p => p | none => (st.revLines, sc)
      let step2 : Option (List (List Char) × Nat) :=
        match s1.1 with
        | lastL :: rest =>
          if lastL = PARAGRAPH_BREAK then
            some ((lastL ++ '\n' :: '*' :: Nat.toDigits 10 s1.2 ++ ['*']) :: rest, s1.2 + 1)
          else none
        | [] => none
      let s2 := match step2 with | some p => p | none => s1
      let res := if st.resultRev ≠ [] then PARAGRAPH_BREAK :: st.resultRev else st.resultRev
      { st with revLines := s2.1, startChapter := some s2.2, resultRev := res }
    else st
  | _, _ => st

/-- one iteration of the enumerate(verse_mark.finditer(line)) loop. -/
def markStep (strict multi : Bool) (endChap : Option Nat) (line : List Char)
    (idx : Nat) (m : Nat × Nat × Nat) (st : MSt) : MSt :=
  let endPos := m.1
  let num := m.2.1
  let verse := sliceCL line st.start (endPos - 1)
  let st1 :=
    if st.verseNum = 0 then
      if pyStrip verse ≠ [] then
        { st with resultRev :=
            (verse_to_markdown (removeMarks verse) none strict ++ LINE_BREAK) :: st.resultRev }
      else st
    else
      let stA := if st.verseNum = 1 then verse1Adjust multi endChap st else st
      { stA with resultRev :=
          (verse_to_markdown (removeMarks verse) (some stA.verseNum) strict ++ LINE_BREAK)
            :: [] :: stA.resultRev }
  let st2 :=
    if idx = 0 then { st1 with verseNum := num }
    else
      { st1 with resultRev := (fillGaps st1.verseNum num).reverse ++ st1.resultRev,
                 verseNum := num }
  { st2 with start := endPos }

def marksLoop (strict multi : Bool) (endChap : Option Nat) (line : List Char) :
    List (Nat × Nat × Nat) → Nat → MSt → MSt
  | [], _, st => st
  | m :: ms, idx, st =>
    marksLoop strict multi endChap line ms (idx + 1)
      (markStep strict multi endChap line idx m st)

/-- processing of one indented (verse-bearing) line; None models the
assertion failure of the no-verse continuation branch. -/
def verseLine (strict multi : Bool) (endChap : Option Nat) (line : List Char)
    (revLines : List (List Char)) (sc : Option Nat) :
    Option (List (List Char) × Option Nat) :=
  let rl0 :=
    if paraStart line then
      if ("##".data).isPrefixOf (revLines.headD []) then [] :: revLines
      else PARAGRAPH_BREAK :: revLines
    else revLines
  let st0 : MSt := ⟨0, [], 0, rl0, sc⟩
  let st := marksLoop strict multi endChap line (findMarks line) 0 st0
  if st.verseNum > 0 then
    let stA := if st.verseNum = 1 then verse1Adjust multi endChap st else st
    let entry :=
      verse_to_markdown (removeMarks (sliceCL line stA.start line.length))
        (some stA.verseNum) strict ++ LINE_BREAK
    some ((entry :: [] :: stA.resultRev) ++ stA.revLines, stA.startChapter)
  else
    if st.start ≠ 0 then none
    else
      match st.revLines with
      | lastL0 :: rest =>
        let lastL := rstripNl lastL0
        if ("##".data).isPrefixOf lastL then
          some ((verse_to_markdown (pyStrip line) none strict)
            :: LINE_BREAK :: lastL :: rest, st.startChapter)
        else if strict then
          some ((lastL ++ "<br>".data ++ [EMPTY_SPACE]
            ++ verse_to_markdown (pyStrip line) none true) :: rest, st.startChapter)
        else
          some ((lastL ++ LINE_BREAK ++ verse_to_markdown line none false) :: rest,
            st.startChapter)
      | [] => none

/-- line.startswith(" "). -/
def startsWithSpace : List Char → Bool
  | c :: _ => c = ' '
  | [] => false

/-- the line state machine of process_2. -/
def process2Go (strict multi : Bool) (endChap : Option Nat) :
    List (List Char) → Nat → List (List Char) → Option Nat →
    Option (List (List Char) × Option Nat)
  | [], _, rl, sc => some (rl, sc)
  | line :: rest, i, rl, sc =>
    let stepped : Option (List (List Char) × Option Nat) :=
      if i = 0 then some (("# ".data ++ line ++ LINE_BREAK) :: rl, sc)
      else if line = "Footnotes".data then
        some ("## Footnotes".data :: PARAGRAPH_BREAK :: rl, sc)
      else if pyStrip line = [] then
        let lastL := rl.headD []
        if ¬ ("#".data.isPrefixOf lastL) ∧ ¬ ("##".data.isPrefixOf lastL) ∧
            ¬ (PARAGRAPH_BREAK.isPrefixOf lastL) ∧ lastL ≠ [] then
          some ([] :: rl, sc)
        else some (rl, sc)
      else if startsWithSpace line then
        verseLine strict multi endChap line rl sc
      else
        match footnoteLine? line with
        | some fl => some (fl :: rl, sc)
        | none =>
          if pyStrip line ≠ [] then
            some (("## ".data ++ line) :: PARAGRAPH_BREAK :: rl, sc)
          else some (rl, sc)
    match stepped with
    | some s => process2Go strict multi endChap rest (i + 1) s.1 s.2
    | none => none

/-- process_2: the passage structurer; None models the assertion failure
on a continuation line with an open marker context. -/
def process_2 (text : List Char) (start_verse end_verse : Option Verse)
    (strict : Bool) : Option (List Char) :=
  let inputLines := splitNl text
  let startChapter : Option Nat :=
    match start_verse with
    | none => none
    | some v =>
      if v.number ≤ 1 then some v.chapter_number
      else some (min (v.chapter_number + 1) v.book.chapter_count)
  let multi :=
    match start_verse, end_verse with
    | some a, some b => decide (a.chapter_number < b.chapter_number)
    | _, _ => false
  let endChap := end_verse.map (fun v => v.chapter_number)
  match process2Go strict multi endChap inputLines 0 [] startChapter with
  | some s => some (pyStrip (List.intercalate LINE_BREAK s.1.reverse))
  | none => none

/-- process_1: normalise curly quotes to straight quotes. -/
def process_1 (text : List Char) : List Char :=
  text.map (fun c =>
    if c = '“' ∨ c = '”' then dquote
    else if c = '‘' ∨ c = '’' then squote
    else c)

/-- process: preprocessing then structuring. -/
def process (text : List Char) (start_verse end_verse : Option Verse)
    (strict : Bool) : Option (List Char) :=
  process_2 (process_1 text) start_verse end_verse strict

/-! ### Derived definitions used by the verification statements -/

/-- sortedness with respect to the sorted() comparison. -/
def SortedPairs : List (Nat × List Char) → Prop
  | [] => True
  | [_] => True
  | x :: y :: t => pairLeB x y = true ∧ SortedPairs (y :: t)

/-- number of occurrences of a pattern in a character list. -/
def countOcc (pat l : List Char) : Nat :=
  (l.tails.filter (fun t => pat.isPrefixOf t)).length

/-- literal verse strings from the repository's own corpus, free of the
open-single-quote break site. -/
def rcv0 : List Char :=
  "After this there was a feast of the Jews, and Jesus went up to Jerusalem.".data

def rcv1 : List Char :=
  "And he has given him authority to execute judgment, because he is the Son of Man.".data

def rcv2 : List Char :=
  "Now is the judgment of this world; now will the ruler of this world be cast out.".data

def rcv3 : List Char :=
  "Ophir, Havilah, and Jobab; all these were the sons of Joktan.".data

def rcv4 : List Char :=
  "The sons of Shem: Elam, Asshur, Arpachshad, Lud, and Aram.".data

def rcv5 : List Char :=
  "(Now they had been sent from the Pharisees.)".data

def rcv6 : List Char :=
  "But to all who did receive him, who believed in his name, he gave the right to become children of God,".data

def rcv7 : List Char :=
  "But when they came to Jesus and saw that he was already dead, they did not break his legs.".data

def rcv8 : List Char :=
  "So when Pilate heard these words, he brought Jesus out and sat down on the judgment seat at a place called The Stone Pavement, and in Aramaic(2) Gabbatha.".data

def rcv9 : List Char :=
  "Nicodemus said to him, \"How can a man be born when he is old? Can he enter a second time into his mother's womb and be born?\"".data

def reflowCorpus : List (List Char) :=
  [rcv0, rcv1, rcv2, rcv3, rcv4, rcv5, rcv6, rcv7, rcv8, rcv9]

/-- one verse string is a fixed point of the reflow in both modes. -/
def reflowFixed (t : List Char) : Prop :=
  verse_to_markdown (verse_to_markdown t none false) none false =
      verse_to_markdown t none false ∧
    verse_to_markdown (verse_to_markdown t none true) none true =
      verse_to_markdown t none true

/-- raw passage for the chapter-15-into-16 scenario. -/
def c7input : List Char :=
  "John 15:27–16:1\n\n  [27] And you also will bear witness, because you have been with me from the beginning.\n\n  [1] “I have said all these things to you to keep you from falling away. (ESV)".data

/-- the structured document for c7input with the 15:27 to 16:1 range. -/
def c7doc : List Char :=
  "# John 15:27–16:1\n\n---\n\n\n27. And you also will bear witness,\n    because you have been with me from the beginning.\n\n\n---\n\n*16*\n\n1. \"I have said all these things to you to keep you from falling away.\n    (ESV)".data

/-- raw passage with verse markers [3] then [5] and no [4]. -/
def c6input : List Char := "John 5:3–5\n\n  [3] Aaa. [5] Bbb.".data

/-- the structured document for c6input: a placeholder entry for verse 4
sits between verses 3 and 5. -/
def c6doc : List Char :=
  "# John 5:3–5\n\n---\n\n\n3. Aaa.\n\n\n4.  \n\n\n5. Bbb.".data

/-! ### Order lemmas for the (score, key) comparison -/

theorem clLt_total : ∀ a b : List Char, clLt a b = true ∨ clLt b a = true ∨ a = b
  | [], [] => Or.inr (Or.inr rfl)
  | [], _ :: _ => Or.inl (by simp [clLt])
  | _ :: _, [] => Or.inr (Or.inl (by simp [clLt]))
  | a :: as, b :: bs => by
    rcases lt_trichotomy a b with h | h | h
    · exact Or.inl (by simp [clLt, h])
    · subst h
      rcases clLt_total as bs with h2 | h2 | h2
      · exact Or.inl (by simp [clLt, h2])
      · exact Or.inr (Or.inl (by simp [clLt, h2]))
      · exact Or.inr (Or.inr (by rw [h2]))
    · exact Or.inr (Or.inl (by simp [clLt, h]))

theorem clLt_trans : ∀ a b c : List Char,
    clLt a b = true → clLt b c = true → clLt a c = true
  | _, [], _ => by intro h _; simp [clLt] at h
  | [], _ :: _, [] => by intro _ h; simp [clLt] at h
  | [], _ :: _, _ :: _ => by intro _ _; simp [clLt]
  | _ :: _, _ :: _, [] => by intro _ h; simp [clLt] at h
  | a :: as, b :: bs, c :: cs => by
    intro h1 h2
    simp only [clLt] at h1 h2 ⊢
    rcases lt_trichotomy a b with hab | hab | hab
    · rcases lt_trichotomy b c with hbc | hbc | hbc
      · simp [lt_trans hab hbc]
      · subst hbc; simp [hab]
      · rw [if_neg (lt_asymm hbc), if_pos hbc] at h2; exact absurd h2 (by simp)
    · subst hab
      rcases lt_trichotomy a c with hac | hac | hac
      · simp [hac]
      · subst hac
        rw [if_neg (lt_irrefl a), if_neg (lt_irrefl a)] at h1 h2 ⊢
        exact clLt_trans as bs cs h1 h2
      · rw [if_neg (lt_asymm hac), if_pos hac] at h2; exact absurd h2 (by simp)
    · rw [if_neg (lt_asymm hab), if_pos hab] at h1; exact absurd h1 (by simp)

theorem pairLeB_refl (x : Nat × List Char) : pairLeB x x = true := by
  simp [pairLeB]

theorem pairLeB_total (x y : Nat × List Char) :
    pairLeB x y = true ∨ pairLeB y x = true := by
  unfold pairLeB
  rcases lt_trichotomy x.1 y.1 with h | h | h
  · left; simp [h]
  · rcases clLt_total x.2 y.2 with h2 | h2 | h2
    · left; simp [h, h2]
    · right; simp [h, h2]
    · left; simp [h, h2]
  · right; simp [h]

theorem pairLeB_trans (x y z : Nat × List Char)
    (h1 : pairLeB x y = true) (h2 : pairLeB y z = true) : pairLeB x z = true := by
  unfold pairLeB at h1 h2 ⊢
  rcases Nat.lt_trichotomy x.1 y.1 with hxy | hxy | hxy
  · rcases Nat.lt_trichotomy y.1 z.1 with hyz | hyz | hyz
    · simp [Nat.lt_trans hxy hyz]
    · simp [show x.1 < z.1 by omega]
    · rw [if_neg (by omega), if_pos hyz] at h2; exact absurd h2 (by simp)
  · rcases Nat.lt_trichotomy y.1 z.1 with hyz | hyz | hyz
    · simp [show x.1 < z.1 by omega]
    · have h1' : (clLt x.2 y.2 || x.2 == y.2) = true := by
        rw [if_neg (by omega), if_neg (by omega)] at h1; exact h1
      have h2' : (clLt y.2 z.2 || y.2 == z.2) = true := by
        rw [if_neg (by omega), if_neg (by omega)] at h2; exact h2
      rw [if_neg (by omega), if_neg (by omega)]
      rcases Bool.or_eq_true_iff.mp h1' with ha | ha <;>
        rcases Bool.or_eq_true_iff.mp h2' with hb | hb
      · exact Bool.or_eq_true_iff.mpr (Or.inl (clLt_trans _ _ _ ha hb))
      · exact Bool.or_eq_true_iff.mpr (Or.inl ((beq_iff_eq.mp hb) ▸ ha))
      · exact Bool.or_eq_true_iff.mpr (Or.inl ((beq_iff_eq.mp ha) ▸ hb))
      · exact Bool.or_eq_true_iff.mpr (Or.inr (by rw [beq_iff_eq.mp ha]; exact hb))
    · rw [if_neg (by omega), if_pos hyz] at h2; exact absurd h2 (by simp)
  · rw [if_neg (by omega), if_pos hxy] at h1; exact absurd h1 (by simp)

/-! ### Insertion-sort lemmas for sorted()[0] -/

theorem mem_insPair (a x : Nat × List Char) :
    ∀ l, a ∈ insPair x l ↔ a = x ∨ a ∈ l
  | [] => by simp [insPair]
  | y :: ys => by
    by_cases h : pairLeB x y = true
    · simp [insPair, h]
    · simp only [insPair, if_neg h, List.mem_cons, mem_insPair a x ys]
      tauto

theorem mem_sortPairs (a : Nat × List Char) :
    ∀ l, a ∈ sortPairs l ↔ a ∈ l
  | [] => by simp [sortPairs]
  | x :: xs => by
    simp [sortPairs, mem_insPair, mem_sortPairs a xs]

theorem sortedPairs_cons_cons (x y : Nat × List Char) (t : List (Nat × List Char)) :
    SortedPairs (x :: y :: t) ↔ (pairLeB x y = true ∧ SortedPairs (y :: t)) :=
  Iff.rfl

theorem sortedPairs_insPair (x : Nat × List Char) :
    ∀ l, SortedPairs l → SortedPairs (insPair x l)
  | [], _ => by simp [insPair, SortedPairs]
  | y :: ys, h => by
    by_cases hxy : pairLeB x y = true
    · rw [insPair, if_pos hxy, sortedPairs_cons_cons]
      exact ⟨hxy, h⟩
    · have hyx : pairLeB y x = true := (pairLeB_total x y).resolve_left hxy
      rw [insPair, if_neg hxy]
      cases ys with
      | nil =>
        rw [show insPair x [] = [x] from rfl, sortedPairs_cons_cons]
        exact ⟨hyx, trivial⟩
      | cons z zs =>
        obtain ⟨hyz, htail⟩ := (sortedPairs_cons_cons y z zs).mp h
        have hrest : SortedPairs (insPair x (z :: zs)) :=
          sortedPairs_insPair x (z :: zs) htail
        by_cases hxz : pairLeB x z = true
        · rw [show insPair x (z :: zs) = x :: z :: zs from by rw [insPair, if_pos hxz],
            sortedPairs_cons_cons]
          exact ⟨hyx, (sortedPairs_cons_cons x z zs).mpr ⟨hxz, htail⟩⟩
        · have hins : insPair x (z :: zs) = z :: insPair x zs := by
            rw [insPair, if_neg hxz]
          rw [hins, sortedPairs_cons_cons]
          exact ⟨hyz, by rw [← hins]; exact hrest⟩

theorem sortedPairs_sortPairs : ∀ l, SortedPairs (sortPairs l)
  | [] => by simp [sortPairs, SortedPairs]
  | x :: xs => sortedPairs_insPair x (sortPairs xs) (sortedPairs_sortPairs xs)

theorem sortedPairs_head_lb :
    ∀ t h, SortedPairs (h :: t) → ∀ a ∈ t, pairLeB h a = true
  | [], _, _, a, ha => by simp at ha
  | y :: ys, h, hs, a, ha => by
    rcases List.mem_cons.mp ha with rfl | ha2
    · exact hs.1
    · exact pairLeB_trans _ _ _ hs.1 (sortedPairs_head_lb ys y hs.2 a ha2)

theorem sortPairs_head_min (l : List (Nat × List Char)) (b : Nat × List Char)
    (h : (sortPairs l).head? = some b) :
    b ∈ l ∧ ∀ a ∈ l, pairLeB b a = true := by
  cases hs : sortPairs l with
  | nil => rw [hs] at h; simp at h
  | cons x t =>
    rw [hs] at h
    simp only [List.head?_cons, Option.some.injEq] at h
    rw [h] at hs
    constructor
    · exact (mem_sortPairs b l).mp (by rw [hs]; exact List.mem_cons_self _ _)
    · intro a ha
      have ha2 : a ∈ sortPairs l := (mem_sortPairs a l).mpr ha
      rw [hs] at ha2
      rcases List.mem_cons.mp ha2 with rfl | ha3
      · exact pairLeB_refl a
      · exact sortedPairs_head_lb t b (by rw [← hs]; exact sortedPairs_sortPairs l) a ha3

/-! ### Catalog safety lemmas -/

theorem from_number_fin_ok :
    ∀ i : Fin 66, (Book.from_number ((i : Nat) + 1 : Int)).isSome := by decide

theorem from_number_isSome_of_range (n : Int) (h1 : 1 ≤ n) (h2 : n ≤ 66) :
    (Book.from_number n).isSome := by
  have hn : n = ((n - 1).toNat : Int) + 1 := by omega
  have hlt : (n - 1).toNat < 66 := by omega
  have := from_number_fin_ok ⟨(n - 1).toNat, hlt⟩
  rw [hn]
  exact this

theorem rl_values_ok : ∀ p ∈ REVERSE_LOOKUP, (Book.from_number p.2).isSome := by
  decide

theorem nv_values_ok :
    ∀ p ∈ REVERSE_LOOKUP_NO_VOWELS, (Book.from_number p.2).isSome := by decide

theorem abbr_values_ok : ∀ p ∈ SPECIAL_ABBREVATIONS,
    ((Book.dictGet REVERSE_LOOKUP (normalizeChars p.2.data)).bind
      Book.from_number).isSome := by decide

/-- mirror of the test asserting the vowel-stripped keys are unique. -/
theorem no_vowels_keys_nodup : (REVERSE_LOOKUP_NO_VOWELS.map Prod.fst).Nodup := by
  decide

theorem dictGet_ok_of_all {d : List (List Char × Int)}
    (hall : ∀ p ∈ d, (Book.from_number p.2).isSome) {k : List Char} {n : Int}
    (h : Book.dictGet d k = some n) : (Book.from_number n).isSome := by
  unfold Book.dictGet at h
  obtain ⟨p, hp, hp2⟩ := Option.map_eq_some'.mp h
  exact hp2 ▸ hall p (List.mem_of_find?_eq_some hp)

theorem keyed_ok_ne_error {n : Int} (hn : (Book.from_number n).isSome)
    (e : BookErr) : Book.keyed (Book.from_number n) ≠ .error e := by
  cases hf : Book.from_number n with
  | none => rw [hf] at hn; simp at hn
  | some b => simp [Book.keyed]

theorem fuzzyBest_key_mem (value : List Char) (sk : Nat × List Char)
    (h : fuzzyBest value = some sk) : ∃ p ∈ REVERSE_LOOKUP, p.1 = sk.2 := by
  have hmm := (sortPairs_head_min (fuzzyPairs value) sk h).1
  obtain ⟨p, hp, hf⟩ := List.mem_filterMap.mp hmm
  cases hfz : fuzzy_match value p.1 with
  | none => rw [hfz] at hf; simp at hf
  | some s =>
    rw [hfz] at hf
    simp only [Option.some.injEq] at hf
    exact ⟨p, hp, by rw [← hf]⟩

theorem fuzzy_lookup_ok (value : List Char) (sk : Nat × List Char)
    (h : fuzzyBest value = some sk) :
    ∃ n, Book.dictGet REVERSE_LOOKUP sk.2 = some n ∧
      (Book.from_number n).isSome := by
  obtain ⟨p, hp, hpk⟩ := fuzzyBest_key_mem value sk h
  have hfind : (REVERSE_LOOKUP.find? (fun q => q.1 = sk.2)).isSome := by
    rw [List.find?_isSome]
    exact ⟨p, hp, by simp [hpk]⟩
  obtain ⟨q, hq⟩ := Option.isSome_iff_exists.mp hfind
  refine ⟨q.2, ?_, ?_⟩
  · unfold Book.dictGet; rw [hq]; rfl
  · exact rl_values_ok q (List.mem_of_find?_eq_some hq)

/-- C1, amended: when no resolution rule matches a non-integer token,
get_book fails with BookNotFound; a pure-integer token outside 1..66
instead fails with the KeyError of the ordinal table lookup. -/
theorem get_book_error_classification (s : List Char) (e : BookErr)
    (h : Book.get_book s = .error e) :
    (pyInt? (normalizeChars s) = none → e = .bookNotFound) ∧
    (∀ n : Int, pyInt? (normalizeChars s) = some n →
      e = .keyError ∧ ¬(1 ≤ n ∧ n ≤ 66)) := by
  constructor
  · intro hp
    cases h1 : Book.dictGet REVERSE_LOOKUP (normalizeChars s) with
    | some n =>
      simp only [Book.get_book, hp, h1] at h
      exact absurd h (keyed_ok_ne_error (dictGet_ok_of_all rl_values_ok h1) e)
    | none =>
      cases h2 : Book.abbrGet (normalizeChars s) with
      | some name =>
        have h2' := h2
        unfold Book.abbrGet at h2'
        obtain ⟨p, hpf, hpv⟩ := Option.map_eq_some'.mp h2'
        have hok := abbr_values_ok p (List.mem_of_find?_eq_some hpf)
        rw [hpv] at hok
        cases h3 : Book.dictGet REVERSE_LOOKUP (normalizeChars name.data) with
        | none => rw [h3] at hok; simp at hok
        | some n =>
          rw [h3] at hok
          simp only [Option.some_bind] at hok
          simp only [Book.get_book, hp, h1, h2, h3] at h
          exact absurd h (keyed_ok_ne_error hok e)
      | none =>
        cases h3 : Book.dictGet REVERSE_LOOKUP_NO_VOWELS (normalizeChars s) with
        | some n =>
          simp only [Book.get_book, hp, h1, h2, h3] at h
          exact absurd h (keyed_ok_ne_error (dictGet_ok_of_all nv_values_ok h3) e)
        | none =>
          cases h4 : REVERSE_LOOKUP.find?
              (fun p => (normalizeChars s).isPrefixOf p.1) with
          | some p =>
            simp only [Book.get_book, hp, h1, h2, h3, h4] at h
            exact absurd h (keyed_ok_ne_error
              (rl_values_ok p (List.mem_of_find?_eq_some h4)) e)
          | none =>
            cases h5 : REVERSE_LOOKUP.find?
                (fun p => containsSub p.1 (normalizeChars s)) with
            | some p =>
              simp only [Book.get_book, hp, h1, h2, h3, h4, h5] at h
              exact absurd h (keyed_ok_ne_error
                (rl_values_ok p (List.mem_of_find?_eq_some h5)) e)
            | none =>
              cases h6 : fuzzyBest (normalizeChars s) with
              | some sk =>
                obtain ⟨n, hn, hok⟩ := fuzzy_lookup_ok _ sk h6
                simp only [Book.get_book, hp, h1, h2, h3, h4, h5, h6, hn] at h
                exact absurd h (keyed_ok_ne_error hok e)
              | none =>
                simp only [Book.get_book, hp, h1, h2, h3, h4, h5, h6] at h
                injection h with h7
                exact h7.symm
  · intro n hp
    simp only [Book.get_book, hp] at h
    cases hf : Book.from_number n with
    | some b => rw [hf] at h; simp [Book.keyed] at h
    | none =>
      rw [hf] at h
      simp only [Book.keyed, Except.error.injEq] at h
      refine ⟨h.symm, ?_⟩
      rintro ⟨hl, hr⟩
      have := from_number_isSome_of_range n hl hr
      rw [hf] at this
      simp at this

/-- C1, counterexample: the pure-integer tokens 0 and 67 match no rule yet
raise KeyError, not BookNotFound. -/
theorem get_book_zero_keyerror :
    Book.get_book "0".data = .error .keyError ∧
    Book.get_book "67".data = .error .keyError ∧
    BookErr.keyError ≠ BookErr.bookNotFound := by decide

/-- witness for get_book_error_classification at the token "bar". -/
theorem get_book_error_classification_witness :
    Book.get_book "bar".data = .error .bookNotFound ∧
    (pyInt? (normalizeChars "bar".data) = none →
      BookErr.bookNotFound = .bookNotFound) :=
  ⟨by decide, (get_book_error_classification "bar".data .bookNotFound (by decide)).1⟩

/-- C4, amended: in the fuzzy-subsequence stage the candidate pair with
the lowest score is returned, ties on equal scores being broken by the
lexicographic order of the normalised candidate name (the tuple order of
sorted()), not by catalog declaration order. -/
theorem fuzzy_stage_returns_minimum (value : List Char) (best : Nat × List Char)
    (h : fuzzyBest value = some best) :
    best ∈ fuzzyPairs value ∧ ∀ p ∈ fuzzyPairs value, pairLeB best p = true :=
  sortPairs_head_min (fuzzyPairs value) best h

/-- witness for fuzzy_stage_returns_minimum at the token "zh". -/
theorem fuzzy_stage_returns_minimum_witness :
    fuzzyBest "zh".data = some (3, "zechariah".data) ∧
    ((3, "zechariah".data) ∈ fuzzyPairs "zh".data ∧
      ∀ p ∈ fuzzyPairs "zh".data, pairLeB (3, "zechariah".data) p = true) :=
  ⟨by decide, fuzzy_stage_returns_minimum "zh".data _ (by decide)⟩

/-- C4, counterexample: on the token "zh" the candidates zephaniah and
zechariah tie at score 3; zephaniah comes first in catalog order yet the
resolver returns Zechariah, because sorted() breaks the tie by comparing
the name strings. -/
theorem fuzzy_tie_not_catalog_order :
    Book.get_book "zh".data = .ok ⟨38, "Zechariah", 14⟩ ∧
    fuzzy_match "zh".data (normalizeChars "Zephaniah".data) = some 3 ∧
    fuzzy_match "zh".data (normalizeChars "Zechariah".data) = some 3 ∧
    REVERSE_LOOKUP.findIdx (fun p => p.1 == "zephaniah".data) <
      REVERSE_LOOKUP.findIdx (fun p => p.1 == "zechariah".data) := by decide

/-- C8: next after prev and prev after next restore every one of the 66
books, and the cycle wraps: next of book 66 is book 1 and prev of book 1
is book 66. -/
theorem next_prev_cycle :
    (∀ i : Fin 66,
      ((Book.from_number ((i : Nat) + 1 : Int)).bind Book.prev).bind Book.next =
        Book.from_number ((i : Nat) + 1 : Int) ∧
      ((Book.from_number ((i : Nat) + 1 : Int)).bind Book.next).bind Book.prev =
        Book.from_number ((i : Nat) + 1 : Int)) ∧
    (Book.from_number 66).bind Book.next = Book.from_number 1 ∧
    (Book.from_number 1).bind Book.prev = Book.from_number 66 := by decide

/-- witness for next_prev_cycle at ordinal 1. -/
theorem next_prev_cycle_witness :
    ((Book.from_number ((0 : Nat) + 1 : Int)).bind Book.prev).bind Book.next =
      Book.from_number ((0 : Nat) + 1 : Int) :=
  (next_prev_cycle.1 ⟨0, by decide⟩).1

/-- C2: "1cor2:11-13" is rejected by the cross-chapter shape (start verse
given, end verse absent) and parsed by the single-chapter verse-range
shape into 1 Corinthians 2:11 to 2:13. -/
theorem parse_1cor2_11_13 :
    parse_query "1cor2:11-13".data =
      .ok (⟨⟨46, "1 Corinthians", 16⟩, 2, 11, ""⟩,
        some ⟨⟨46, "1 Corinthians", 16⟩, 2, 13, ""⟩) ∧
    parse_chapters_with_verses "1cor2:11-13".data = none ∧
    parse_single_chapter_with_verses "1cor2:11-13".data =
      some ("1cor".data, 2, 11, 13) := by decide

/-- C10: the empty query falls through to the chapter-only shape, which
appends "1", fails its book/chapter pattern, and returns the literal book
token "1" with chapter 1; ordinal lookup then yields Genesis. -/
theorem parse_empty_query :
    parse_query [] = .ok (⟨⟨1, "Genesis", 50⟩, 1, 0, ""⟩, none) ∧
    parse_single_chapter_no_verse [] = (['1'], 1) ∧
    Book.get_book ['1'] = .ok ⟨1, "Genesis", 50⟩ := by decide

/-- C3, amended: whenever parse_query returns a range with a non-null end
cursor, the end book equals the start book; non-decreasingness of the
range is not guaranteed. -/
theorem parse_query_end_book_eq (q : List Char) (v1 v2 : Verse)
    (h : parse_query q = .ok (v1, some v2)) : v2.book = v1.book := by
  cases h1 : parse_chapters_with_verses q with
  | some t =>
    obtain ⟨book, sc, sv, ec, ev⟩ := t
    cases hb : Book.get_book book with
    | error e => simp [parse_query, h1, hb] at h
    | ok b =>
      simp only [parse_query, h1, hb, Except.ok.injEq, Prod.mk.injEq,
        Option.some.injEq] at h
      rw [← h.1, ← h.2]
  | none =>
    cases h2 : parse_single_chapter_with_verses q with
    | some t =>
      obtain ⟨book, ch, a, b2⟩ := t
      cases hb : Book.get_book book with
      | error e => simp [parse_query, h1, h2, hb] at h
      | ok b =>
        simp only [parse_query, h1, h2, hb, Except.ok.injEq, Prod.mk.injEq,
          Option.some.injEq] at h
        rw [← h.1, ← h.2]
    | none =>
      cases h3 : parse_single_chapter_with_start_verse q with
      | some t =>
        obtain ⟨book, ch, v⟩ := t
        cases hb : Book.get_book book with
        | error e => simp [parse_query, h1, h2, h3, hb] at h
        | ok b => simp [parse_query, h1, h2, h3, hb] at h
      | none =>
        cases hb : Book.get_book (parse_single_chapter_no_verse q).1 with
        | error e => simp [parse_query, h1, h2, h3, hb] at h
        | ok b => simp [parse_query, h1, h2, h3, hb] at h

/-- witness for parse_query_end_book_eq at the query "g1:1-2". -/
theorem parse_query_end_book_eq_witness :
    parse_query "g1:1-2".data =
      .ok (⟨⟨1, "Genesis", 50⟩, 1, 1, ""⟩, some ⟨⟨1, "Genesis", 50⟩, 1, 2, ""⟩) ∧
    (⟨⟨1, "Genesis", 50⟩, 1, 2, ""⟩ : Verse).book =
      (⟨⟨1, "Genesis", 50⟩, 1, 1, ""⟩ : Verse).book :=
  ⟨by decide, parse_query_end_book_eq "g1:1-2".data _ _ (by decide)⟩

/-- C3, counterexample: the query "g2-1" parses to start chapter 2 and end
chapter 1, a decreasing range. -/
theorem parse_query_decreasing_range :
    parse_query "g2-1".data =
      .ok (⟨⟨1, "Genesis", 50⟩, 2, 0, ""⟩, some ⟨⟨1, "Genesis", 50⟩, 1, 0, ""⟩) ∧
    ¬ ((1 : Nat) > 2 ∨ ((1 : Nat) = 2 ∧ (0 : Nat) ≥ 0)) := by decide

/-- C9, amended: every exception parse_query propagates is one raised by
book resolution (BookNotFound, or KeyError for an integer book token
outside the table); when the three richer shapes fail the chapter-only
fallback yields verse 0 and a null end, and a query with no extractable
chapter defaults to book token "1", chapter 1. -/
theorem parse_query_error_fallback :
    (∀ (q : List Char) (e : BookErr), parse_query q = .error e →
      ∃ tok, Book.get_book tok = .error e) ∧
    (∀ (q : List Char) (v : Verse) (oe : Option Verse),
      parse_chapters_with_verses q = none →
      parse_single_chapter_with_verses q = none →
      parse_single_chapter_with_start_verse q = none →
      parse_query q = .ok (v, oe) → v.number = 0 ∧ oe = none) ∧
    parse_query "john".data = .ok (⟨⟨43, "John", 21⟩, 1, 0, ""⟩, none) ∧
    parse_single_chapter_no_verse [] = (['1'], 1) := by
  refine ⟨?_, ?_, by decide, by decide⟩
  · intro q e h
    cases h1 : parse_chapters_with_verses q with
    | some t =>
      obtain ⟨book, sc, sv, ec, ev⟩ := t
      cases hb : Book.get_book book with
      | error e2 =>
        simp only [parse_query, h1, hb, Except.error.injEq] at h
        exact ⟨book, h ▸ hb⟩
      | ok b => simp [parse_query, h1, hb] at h
    | none =>
      cases h2 : parse_single_chapter_with_verses q with
      | some t =>
        obtain ⟨book, ch, a, b2⟩ := t
        cases hb : Book.get_book book with
        | error e2 =>
          simp only [parse_query, h1, h2, hb, Except.error.injEq] at h
          exact ⟨book, h ▸ hb⟩
        | ok b => simp [parse_query, h1, h2, hb] at h
      | none =>
        cases h3 : parse_single_chapter_with_start_verse q with
        | some t =>
          obtain ⟨book, ch, v⟩ := t
          cases hb : Book.get_book book with
          | error e2 =>
            simp only [parse_query, h1, h2, h3, hb, Except.error.injEq] at h
            exact ⟨book, h ▸ hb⟩
          | ok b => simp [parse_query, h1, h2, h3, hb] at h
        | none =>
          cases hb : Book.get_book (parse_single_chapter_no_verse q).1 with
          | error e2 =>
            simp only [parse_query, h1, h2, h3, hb, Except.error.injEq] at h
            exact ⟨(parse_single_chapter_no_verse q).1, h ▸ hb⟩
          | ok b => simp [parse_query, h1, h2, h3, hb] at h
  · intro q v oe h1 h2 h3 h
    cases hb : Book.get_book (parse_single_chapter_no_verse q).1 with
    | error e => simp [parse_query, h1, h2, h3, hb] at h
    | ok b =>
      simp only [parse_query, h1, h2, h3, hb, Except.ok.injEq,
        Prod.mk.injEq] at h
      refine ⟨by rw [← h.1], h.2.symm⟩

/-- witness for parse_query_error_fallback at the query "bar". -/
theorem parse_query_error_fallback_witness :
    parse_query "bar".data = .error .bookNotFound ∧
    (∃ tok, Book.get_book tok = .error .bookNotFound) :=
  ⟨by decide, parse_query_error_fallback.1 "bar".data .bookNotFound (by decide)⟩

/-- C9, counterexample: the query "00" yields the book token "0", whose
ordinal lookup raises KeyError, so BookNotFound is not the only exception
parse_query propagates. -/
theorem parse_query_00_keyerror :
    parse_query "00".data = .error .keyError ∧
    parse_single_chapter_no_verse "00".data = ("0".data, 0) ∧
    BookErr.keyError ≠ BookErr.bookNotFound := by decide

/-- C5, counterexample: one reflow of "a 'b" breaks before the opening
single quote; because the inserted indent ends in a space, a second run
matches the open-single-quote rule again and inserts a second break. -/
theorem reflow_not_idempotent :
    verse_to_markdown (verse_to_markdown "a 'b".data none false) none false ≠
      verse_to_markdown "a 'b".data none false ∧
    verse_to_markdown "a 'b".data none false = "a\n    'b".data ∧
    verse_to_markdown (verse_to_markdown "a 'b".data none false) none false =
      "a\n   \n    'b".data := by decide

theorem rcIdem0 : reflowFixed rcv0 := by constructor <;> decide

theorem rcIdem1 : reflowFixed rcv1 := by constructor <;> decide

theorem rcIdem2 : reflowFixed rcv2 := by constructor <;> decide

theorem rcIdem3 : reflowFixed rcv3 := by constructor <;> decide

theorem rcIdem4 : reflowFixed rcv4 := by constructor <;> decide

theorem rcIdem5 : reflowFixed rcv5 := by constructor <;> decide

theorem rcIdem6 : reflowFixed rcv6 := by constructor <;> decide

theorem rcIdem7 : reflowFixed rcv7 := by constructor <;> decide

theorem rcIdem8 : reflowFixed rcv8 := by constructor <;> decide

theorem rcIdem9 : reflowFixed rcv9 := by constructor <;> decide

/-- C5, amended: reflow is not idempotent in general, but re-running it on
verse text without an open-single-quote break site inserts no further
breaks; verified in both modes on ten literal verse strings from the
corpus. -/
theorem reflow_idempotent_on_corpus :
    ∀ t ∈ reflowCorpus, ∀ s : Bool,
      verse_to_markdown (verse_to_markdown t none s) none s =
        verse_to_markdown t none s := by
  intro t ht s
  simp only [reflowCorpus, List.mem_cons, List.not_mem_nil, or_false] at ht
  rcases ht with rfl | rfl | rfl | rfl | rfl | rfl | rfl | rfl | rfl | rfl
  · cases s
    · exact rcIdem0.1
    · exact rcIdem0.2
  · cases s
    · exact rcIdem1.1
    · exact rcIdem1.2
  · cases s
    · exact rcIdem2.1
    · exact rcIdem2.2
  · cases s
    · exact rcIdem3.1
    · exact rcIdem3.2
  · cases s
    · exact rcIdem4.1
    · exact rcIdem4.2
  · cases s
    · exact rcIdem5.1
    · exact rcIdem5.2
  · cases s
    · exact rcIdem6.1
    · exact rcIdem6.2
  · cases s
    · exact rcIdem7.1
    · exact rcIdem7.2
  · cases s
    · exact rcIdem8.1
    · exact rcIdem8.2
  · cases s
    · exact rcIdem9.1
    · exact rcIdem9.2

/-- witness for reflow_idempotent_on_corpus at the first corpus string. -/
theorem reflow_idempotent_on_corpus_witness :
    (rcv0 ∈ reflowCorpus) ∧
    verse_to_markdown (verse_to_markdown rcv0 none false) none false =
      verse_to_markdown rcv0 none false :=
  ⟨by decide, reflow_idempotent_on_corpus rcv0 (by decide) false⟩

theorem fillGapsGo_eq : ∀ (fuel a b : Nat), b - (a + 1) ≤ fuel →
    fillGapsGo fuel a b = (List.range' (a + 1) (b - (a + 1))).flatMap
      (fun n => [[], placeholderEntry n])
  | 0, a, b, h => by
    have hz : b - (a + 1) = 0 := by omega
    rw [hz, fillGapsGo]
    rfl
  | fuel + 1, a, b, h => by
    by_cases hc : a + 1 < b
    · have hr : b - (a + 1) = (b - (a + 2)) + 1 := by omega
      rw [fillGapsGo, if_pos hc, hr, List.range'_succ]
      rw [fillGapsGo_eq fuel (a + 1) b (by omega)]
      rfl
    · rw [fillGapsGo, if_neg hc]
      have hz : b - (a + 1) = 0 := by omega
      rw [hz]
      rfl

theorem fillGaps_eq (a b : Nat) :
    fillGaps a b = (List.range' (a + 1) (b - (a + 1))).flatMap
      (fun n => [[], placeholderEntry n]) :=
  fillGapsGo_eq (b - a) a b (by omega)

/-- C6: the structurer backfills one placeholder entry (number with empty
body, the EMPTY_SPACE figure space) for every verse number skipped
between two inline markers, as on a line carrying [3] then [5]. -/
theorem structurer_backfills_gaps :
    (∀ a b : Nat, fillGaps a b = (List.range' (a + 1) (b - (a + 1))).flatMap
      (fun n => [[], placeholderEntry n])) ∧
    placeholderEntry 4 = "4. ".data ++ [EMPTY_SPACE] ++ ['\n'] ∧
    process c6input none none false = some c6doc ∧
    countOcc ("4. ".data ++ [EMPTY_SPACE]) c6doc = 1 :=
  ⟨fillGaps_eq, by decide, by decide, by decide⟩

/-- witness for structurer_backfills_gaps at the gap from 3 to 5. -/
theorem structurer_backfills_gaps_witness :
    fillGaps 3 5 = (List.range' 4 (5 - 4)).flatMap
      (fun n => [[], placeholderEntry n]) :=
  structurer_backfills_gaps.1 3 5

/-- C7: on a range from chapter 15 into chapter 16, the chapter marker
*16* is injected exactly once, appended to the separator line emitted
just before the first verse numbered 1 of the new chapter. -/
theorem structurer_chapter_marker_once :
    process c7input (some ⟨⟨43, "John", 21⟩, 15, 27, ""⟩)
        (some ⟨⟨43, "John", 21⟩, 16, 1, ""⟩) false = some c7doc ∧
    countOcc "*16*".data c7doc = 1 ∧
    countOcc ("---\n\n*16*\n\n1. ".data) c7doc = 1 := by decide

end Bible
